import Mathlib

/-!
Verification development for the bambu-mcp repository.

Shallow embedding of the core components, translated from the TypeScript
sources:

- Vision:  the verdict parser of src/vision-provider.ts (parseVerdict).
- Status:  the inbound report handler of src/mqtt-client.ts (connect's
  message callback) maintaining the cached printer status.
- Cmd:     command correlation and timeout of src/mqtt-client.ts
  (sendCommand with waitForResponse).
- Camera:  the frame reconstruction loop of src/index.ts (captureSnapshot).
- Mon:     the monitoring state machine of src/print-monitor.ts
  (PrintMonitor.monitorCycle, handleFailure, stop).

JavaScript strings are modelled as String except in Vision, where the
character-level operations of parseVerdict are modelled over List Char.
JavaScript objects holding status fields are modelled as association lists
with first-match lookup. Asynchronous callbacks are modelled functionally:
the inbound message stream is an explicit list in arrival order, and the
effects of the injected dependencies of the monitor (snapshot capture,
vision analysis, the stop command) enter each cycle as explicit inputs.
-/

namespace Vision

/-- Whitespace test used to model the \s class and trim of JavaScript. -/
def isWs (c : Char) : Bool := c = ' ' || c = '\t' || c = '\n' || c = '\r'

/-- Characters of the literal prefix checked by parseVerdict. -/
def failPrefix : List Char := String.toList "VERDICT: FAIL"

/-- Model of the JavaScript String.replace with a string pattern and empty
replacement: it removes the first occurrence of the pattern only. -/
def replaceFirst (pat : List Char) : List Char → List Char
  | [] => []
  | c :: rest =>
    if pat.isPrefixOf (c :: rest) then (c :: rest).drop pat.length
    else c :: replaceFirst pat rest

/-- Model of .replace applied to the anchored pattern of leading whitespace,
a literal pipe, and trailing whitespace: if after leading whitespace a pipe
follows, the whitespace, the pipe and the whitespace after it are removed;
otherwise the string is unchanged (the pipe in the pattern is mandatory). -/
def stripPipe (s : List Char) : List Char :=
  match s.dropWhile isWs with
  | '|' :: rest => rest.dropWhile isWs
  | _ => s

/-- Model of the JavaScript String.trim: whitespace removed at both ends. -/
def trimChars (s : List Char) : List Char :=
  ((s.dropWhile isWs).reverse.dropWhile isWs).reverse

/-- Parsed verdict: the failed flag and reason text, as produced by
parseVerdict in src/vision-provider.ts. -/
structure Verdict where
  failed : Bool
  reason : List Char
deriving DecidableEq

/-- Fallback reason used when the stripped remainder is empty. -/
def fallbackReason : List Char := String.toList "visual failure detected"

/-- Translation of parseVerdict from src/vision-provider.ts: a reply
starting with the fail prefix yields failed := true with the reply after
removing the prefix, an optional pipe separator with surrounding
whitespace, and outer whitespace, falling back to a fixed reason when
empty; any other reply yields failed := false with the full reply. -/
def parseVerdict (reply : List Char) : Verdict :=
  if failPrefix.isPrefixOf reply then
    let reason := trimChars (stripPipe (replaceFirst failPrefix reply))
    { failed := true, reason := if reason = [] then fallbackReason else reason }
  else { failed := false, reason := reply }

/-- Remainder of a failure reply as the specification words it: the reply
after stripping the fail prefix, then the optional pipe separator with its
surrounding whitespace. -/
def specRemainder (reply : List Char) : List Char :=
  trimChars (stripPipe (reply.drop failPrefix.length))

end Vision

namespace Status

/-- Shallow merge of two status objects, modelled on association lists with
first-match lookup: the fields of the update shadow the fields of the old
cache, exactly as the object spread in the message handler of
src/mqtt-client.ts puts the incoming report's fields after the cached
ones. -/
def mergeStatus (old upd : List (String × α)) : List (String × α) := upd ++ old

/-- One inbound message on the report channel: either it fails JSON.parse,
or it parses to an object whose print and mc_print fields are each either
absent (none, also covering falsy values) or a status sub-object. -/
inductive Inbound (α : Type) where
  | unparsable : Inbound α
  | parsed (printObj mcPrintObj : Option (List (String × α))) : Inbound α

/-- The recognized status sub-object of a message: data.print when present,
otherwise data.mc_print, otherwise nothing. -/
def recognize : Inbound α → Option (List (String × α))
  | .unparsable => none
  | .parsed p mc => p.orElse (fun _ => mc)

/-- Translation of the message callback installed by connect in
src/mqtt-client.ts: a message that fails to parse is ignored inside the
catch, and a parsed message merges its recognized status sub-object (when
it has one) shallowly into the cache. -/
def handleMessage (cache : List (String × α)) (m : Inbound α) : List (String × α) :=
  match recognize m with
  | some status => mergeStatus cache status
  | none => cache

/-- Replaying a whole arrival-ordered sequence of inbound messages through
the handler. -/
def replay (cache : List (String × α)) (msgs : List (Inbound α)) : List (String × α) :=
  msgs.foldl handleMessage cache

/-- Modelled from the spec: the iterative shallow merge, in arrival order,
of exactly the recognized status sub-objects of a message sequence. -/
def specMergeAll (cache : List (String × α)) (msgs : List (Inbound α)) : List (String × α) :=
  (msgs.filterMap recognize).foldl mergeStatus cache

end Status

namespace Cmd

/-- Response sub-object carried under a command-family key of an inbound
message: its sequence identifier and an opaque payload body. -/
structure RespData (α : Type) where
  seqId : String
  body : α
deriving DecidableEq

/-- One raw inbound message as seen by a response handler of sendCommand in
src/mqtt-client.ts: either it fails to parse (junk), or it is an object
mapping top-level namespace keys to response sub-objects. -/
inductive Report (α : Type) where
  | junk : Report α
  | obj (fields : List (String × RespData α)) : Report α

/-- Translation of one response handler invocation: the message must parse,
carry a sub-object under the command-family key, and that sub-object's
sequence identifier must equal the pending command's own; only then does
the handler resolve, with that sub-object. -/
def respondsTo (ty seqId : String) : Report α → Option (RespData α)
  | .junk => none
  | .obj fields =>
    match fields.lookup ty with
    | some rd => if rd.seqId = seqId then some rd else none
    | none => none

/-- Resolution of one pending command against the arrival-ordered inbound
message list: the first message the handler accepts resolves the command
(the handler is then removed, so later messages are not consulted). -/
def findResponse (ty seqId : String) (msgs : List (Report α)) : Option (RespData α) :=
  msgs.findSome? (respondsTo ty seqId)

/-- An inbound message together with its arrival time. -/
structure TimedReport (α : Type) where
  time : Nat
  report : Report α

/-- Outcome of an awaited command: resolved with a response sub-object, or
rejected with the timeout error message. -/
inductive Outcome (α : Type) where
  | resolved (rd : RespData α) : Outcome α
  | timedOut (errMsg : String) : Outcome α
deriving DecidableEq

/-- The command family: the part of the command name before the first dot,
as obtained by destructuring the first element of command.split in
sendCommand. -/
def commandType (command : String) : String :=
  String.mk (command.toList.takeWhile (fun c => c ≠ '.'))

/-- The fixed wait bound of sendCommand, in time units (the source uses
10000 milliseconds, i.e. 10 seconds). -/
def timeoutUnits : Nat := 10

/-- Timeout error message built by sendCommand. -/
def timeoutMsg (command : String) : String :=
  "Command '" ++ command ++ "' timed out after 10s"

/-- Execution of one awaited command issued at time t0 against a
chronologically ordered event list: the first matching message arriving
strictly before the timeout deadline resolves the command; otherwise the
timer fires, the handler is removed, and the command is rejected with the
timeout error, so any matching message at or after the deadline resolves
nothing. -/
def runCommand (command seqId : String) (t0 : Nat) (events : List (TimedReport α)) : Outcome α :=
  match events.findSome?
      (fun e =>
        if e.time < t0 + timeoutUnits then respondsTo (commandType command) seqId e.report
        else none) with
  | some rd => .resolved rd
  | none => .timedOut (timeoutMsg command)

end Cmd

namespace Camera

/-- Parser state of the frame reconstruction loop in captureSnapshot of
src/index.ts: the unconsumed byte buffer, the payload size decoded from the
current header, the partially accumulated frame (none while scanning for a
header), and the returned payload once a valid frame completed. -/
structure CapState where
  pending : List Nat
  payloadSize : Nat
  frameBuf : Option (List Nat)
  done : Option (List Nat)
deriving DecidableEq

/-- Payload byte length decoded from the first three bytes of a header,
little endian, exactly as pending zero or-ed with the shifted next two
bytes. -/
def le3 (l : List Nat) : Nat :=
  l.getD 0 0 ||| (l.getD 1 0 <<< 8) ||| (l.getD 2 0 <<< 16)

/-- Start and end marker check of a completed frame: first two bytes are
the JPEG start marker and last two bytes are the JPEG end marker. Reading
past the end yields a non-byte default, matching the undefined comparison
of the source being false. -/
def validStartEnd (b : List Nat) : Bool :=
  (b.getD 0 256 == 0xff) && (b.getD 1 256 == 0xd8) &&
  (b.getD (b.length - 2) 256 == 0xff) && (b.getD (b.length - 1) 256 == 0xd9)

/-- State after consuming a 16-byte header from the pending buffer. -/
def headerNext (s : CapState) : CapState :=
  { pending := s.pending.drop 16, payloadSize := le3 s.pending,
    frameBuf := some [], done := none }

/-- Bytes moved from pending into the frame buffer by one payload step: the
needed count capped by what is pending. -/
def payloadTake (s : CapState) (buf : List Nat) : Nat :=
  min (s.payloadSize - buf.length) s.pending.length

/-- Frame buffer after one payload step. -/
def payloadBuf (s : CapState) (buf : List Nat) : List Nat :=
  buf ++ s.pending.take (payloadTake s buf)

/-- Pending buffer after one payload step. -/
def payloadPend (s : CapState) (buf : List Nat) : List Nat :=
  s.pending.drop (payloadTake s buf)

/-- State after a completed frame failed the marker check: the frame is
discarded and scanning resumes at the next header. -/
def invalidNext (s : CapState) (buf : List Nat) : CapState :=
  { pending := payloadPend s buf, payloadSize := s.payloadSize,
    frameBuf := none, done := none }

/-- State after a payload step that did not yet complete the frame. -/
def growNext (s : CapState) (buf : List Nat) : CapState :=
  { pending := payloadPend s buf, payloadSize := s.payloadSize,
    frameBuf := some (payloadBuf s buf), done := none }

/-- Terminal state on the first completed frame passing the marker check:
the payload is handed to the caller and the transport is closed (no further
bytes are consumed). -/
def doneState (s : CapState) (buf : List Nat) : CapState :=
  { pending := payloadPend s buf, payloadSize := s.payloadSize,
    frameBuf := some (payloadBuf s buf), done := some (payloadBuf s buf) }

/-- Fuel-indexed translation of the inner while loop of the data handler:
while bytes are pending and no frame was returned, either consume a 16-byte
header (breaking if fewer than 16 bytes are buffered) or move bytes into
the current frame, validating it once its declared length is fully
buffered. The fuel only serves totality; drain always supplies enough. -/
def drainF : Nat → CapState → CapState
  | 0, s => s
  | Nat.succ n, s =>
    if s.done.isSome then s
    else if s.pending = [] then s
    else
      match s.frameBuf with
      | none =>
        if s.pending.length < 16 then s
        else drainF n (headerNext s)
      | some buf =>
        if (payloadBuf s buf).length = s.payloadSize then
          if validStartEnd (payloadBuf s buf) then doneState s buf
          else drainF n (invalidNext s buf)
        else drainF n (growNext s buf)

/-- Loop measure: three fuel per pending byte plus a small state tax. -/
def muC (s : CapState) : Nat :=
  3 * s.pending.length +
    (match s.frameBuf with
     | none => 0
     | some buf => if s.payloadSize ≤ buf.length then 1 else 2)

/-- Running the while loop to quiescence. -/
def drain (s : CapState) : CapState := drainF (muC s + 1) s

/-- Appending a transport chunk to the pending buffer. -/
def appendP (s : CapState) (chunk : List Nat) : CapState :=
  { s with pending := s.pending ++ chunk }

/-- Translation of the data event handler: once done, further chunks are
ignored; otherwise the chunk is concatenated onto pending and the loop
runs. -/
def feed (s : CapState) (chunk : List Nat) : CapState :=
  if s.done.isSome then s else drain (appendP s chunk)

/-- Parser state when the connection opens. -/
def initState : CapState :=
  { pending := [], payloadSize := 0, frameBuf := none, done := none }

/-- Feeding a whole list of transport chunks in order. -/
def runChunks (chunks : List (List Nat)) : CapState :=
  chunks.foldl feed initState

/-- Invariant of reachable parser states: an accumulated frame never
exceeds its declared payload size. -/
def Inv (s : CapState) : Prop :=
  ∀ b, s.frameBuf = some b → b.length ≤ s.payloadSize

/-- Property that any returned payload passed the marker check. -/
def DoneOk (s : CapState) : Prop :=
  ∀ p, s.done = some p → validStartEnd p = true

end Camera

namespace Mon

/-- Verdict record returned by a vision provider, as consumed by the
monitor (vision-provider.ts VisionAnalysisResult). -/
structure VisionAnalysisResult where
  failed : Bool
  reason : String
  provider : String
  model : String
  latencyMs : Nat
deriving DecidableEq

/-- Monitor configuration (print-monitor.ts MonitorConfig). -/
structure MonitorConfig where
  intervalSeconds : Nat
  minLayerForVision : Nat
  host : String
  accessCode : String
  snapshotDir : String

/-- Monitor session state (print-monitor.ts MonitorState). -/
structure MonitorState where
  active : Bool
  cycleCount : Nat
  lastVerdict : Option VisionAnalysisResult
  lastSnapshotPath : Option String
  failureDetected : Bool
  failureReason : Option String
  emergencyStopSent : Bool
  printState : Option String
  printPercent : Option Nat
  layer : Option Nat
  totalLayers : Option Nat
  errors : List String

/-- Initial monitor state built by the PrintMonitor constructor. -/
def initialState : MonitorState :=
  { active := false, cycleCount := 0, lastVerdict := none,
    lastSnapshotPath := none, failureDetected := false, failureReason := none,
    emergencyStopSent := false, printState := none, printPercent := none,
    layer := none, totalLayers := none, errors := [] }

/-- The PrintMonitor instance: its configuration, session state, and
whether the cycle interval timer is installed. -/
structure PrintMonitor where
  config : MonitorConfig
  state : MonitorState
  timerSet : Bool

/-- Everything one cycle observes from its injected dependencies: MQTT
connectivity, the cached status fields the cycle reads (absent fields as
none), the result of the snapshot capture, the result of the vision call
(errors of reading the snapshot file or of the provider both surface as
the caught error), and whether the stop command, if sent, succeeds. -/
structure CycleInput where
  connected : Bool
  gcodeState : Option String
  mcPercent : Option Nat
  layerNum : Option Nat
  totalLayerNum : Option Nat
  printError : Option Nat
  snapshot : Except String String
  vision : Except String VisionAnalysisResult
  stopOk : Bool

/-- JavaScript or-default on an optional string: absent or empty falls back
to the default. -/
def jsOrS (o : Option String) (d : String) : String :=
  match o with
  | some s => if s = "" then d else s
  | none => d

/-- JavaScript or-default on an optional number: absent or zero falls back
to the default. -/
def jsOrN (o : Option Nat) (d : Nat) : Nat :=
  match o with
  | some n => if n = 0 then d else n
  | none => d

/-- Truthiness of the optional print_error field combined with the
non-zero test, as in the condition and the reason selection of the MQTT
failure check. -/
def printErrorTruthy (o : Option Nat) : Bool :=
  match o with
  | some n => n != 0
  | none => false

/-- Error log line of a cycle skipped for a disconnected client. -/
def disconnectedMsg (n : Nat) : String :=
  "Cycle " ++ toString n ++ ": MQTT disconnected — status data is stale, skipping vision analysis"

/-- Error log line of a failed snapshot capture. -/
def snapshotFailedMsg (n : Nat) (m : String) : String :=
  "Cycle " ++ toString n ++ ": snapshot failed: " ++ m

/-- Error log line of a failed vision call. -/
def visionErrorMsg (n : Nat) (m : String) : String :=
  "Cycle " ++ toString n ++ ": vision error: " ++ m

/-- Reason recorded on the MQTT failure path. -/
def mqttFailureReason (printError : Option Nat) : String :=
  if printErrorTruthy printError then "MQTT error code " ++ toString (printError.getD 0)
  else "MQTT FAILED state"

/-- Translation of PrintMonitor.stop: the interval timer is cleared and the
session leaves the active state. -/
def stopMonitor (m : PrintMonitor) : PrintMonitor :=
  { m with timerSet := false, state := { m.state with active := false } }

/-- Translation of PrintMonitor.handleFailure: the failure flags and reason
are recorded, the emergency stop command is sent (its success recorded,
its failure only logged), and the monitor stops. The returned list holds
the commands issued to the MQTT client. -/
def handleFailure (m : PrintMonitor) (reason : String) (stopOk : Bool) :
    PrintMonitor × List String :=
  let st1 := { m.state with failureDetected := true, failureReason := some reason }
  let st2 := if stopOk then { st1 with emergencyStopSent := true } else st1
  (stopMonitor { m with state := st2 }, ["print.stop"])

/-- Translation of PrintMonitor.monitorCycle: an inactive monitor does
nothing; otherwise the cycle counter advances; a disconnected client logs
and skips the cycle; the cached status fields are read with their falsy
defaults; a failed snapshot capture logs and skips the rest of the cycle;
a truthy non-zero print_error or the FAILED state takes the failure path;
the FINISH state stops the monitor cleanly; otherwise, from the configured
minimum layer on, the vision verdict is consulted, a vision error being
logged as non-fatal and a failed verdict taking the failure path. -/
def monitorCycle (m : PrintMonitor) (i : CycleInput) : PrintMonitor × List String :=
  if m.state.active = false then (m, [])
  else
    let st0 := { m.state with cycleCount := m.state.cycleCount + 1 }
    let n := st0.cycleCount
    if i.connected = false then
      ({ m with state := { st0 with errors := st0.errors ++ [disconnectedMsg n] } }, [])
    else
      let printState := jsOrS i.gcodeState "UNKNOWN"
      let percent := jsOrN i.mcPercent 0
      let layer := jsOrN i.layerNum 0
      let totalLayers := jsOrN i.totalLayerNum 0
      let st1 := { st0 with
        printState := some printState, printPercent := some percent,
        layer := some layer, totalLayers := some totalLayers }
      match i.snapshot with
      | .error msg =>
        ({ m with state := { st1 with errors := st1.errors ++ [snapshotFailedMsg n msg] } }, [])
      | .ok savedPath =>
        let st2 := { st1 with lastSnapshotPath := some savedPath }
        if printErrorTruthy i.printError = true ∨ printState = "FAILED" then
          handleFailure { m with state := st2 } (mqttFailureReason i.printError) i.stopOk
        else if printState = "FINISH" then
          (stopMonitor { m with state := st2 }, [])
        else if m.config.minLayerForVision ≤ layer then
          match i.vision with
          | .error msg =>
            ({ m with state := { st2 with errors := st2.errors ++ [visionErrorMsg n msg] } }, [])
          | .ok verdict =>
            let st3 := { st2 with lastVerdict := some verdict }
            if verdict.failed = true then
              handleFailure { m with state := st3 } ("Vision: " ++ verdict.reason) i.stopOk
            else ({ m with state := st3 }, [])
        else ({ m with state := st2 }, [])

/-- Translation of PrintMonitor.start on a fresh instance: the session
becomes active and the interval timer is installed (the immediate first
cycle and later cycles are driven explicitly through monitorCycle). -/
def startMonitor (cfg : MonitorConfig) : PrintMonitor :=
  { config := cfg, state := { initialState with active := true }, timerSet := true }

/-- Running a whole monitoring session: each cycle input in turn, the
issued commands accumulated in order. -/
def monitorRun (m : PrintMonitor) (inputs : List CycleInput) : PrintMonitor × List String :=
  inputs.foldl (fun acc i => ((monitorCycle acc.1 i).1, acc.2 ++ (monitorCycle acc.1 i).2)) (m, [])

/-- Concrete monitor used to exhibit behaviour at the defaults: interval
60, minimum layer 2 (the defaults of monitorStart in src/index.ts). -/
def exMonitor : PrintMonitor :=
  startMonitor { intervalSeconds := 60, minLayerForVision := 2, host := "printer.local",
                 accessCode := "code", snapshotDir := "snapshots" }

/-- Cycle input of a healthy mid-print cycle whose vision verdict reports a
failure: connected, running, layer 5 of 100, snapshot captured, verdict
failed. -/
def visionFailInput : CycleInput :=
  { connected := true, gcodeState := some "RUNNING", mcPercent := some 40,
    layerNum := some 5, totalLayerNum := some 100, printError := none,
    snapshot := .ok "snap1.jpg",
    vision := .ok { failed := true, reason := "spaghetti detected", provider := "openai",
                    model := "gpt-4o", latencyMs := 900 },
    stopOk := true }

/-- Cycle input whose cached status carries hardware error code 1 while the
snapshot capture fails. -/
def hwErrorSnapFailInput : CycleInput :=
  { connected := true, gcodeState := some "RUNNING", mcPercent := some 40,
    layerNum := some 5, totalLayerNum := some 100, printError := some 1,
    snapshot := .error "connection reset",
    vision := .error "not reached", stopOk := true }

/-- Cycle input whose cached status signals completion while the snapshot
capture fails. -/
def finishSnapFailInput : CycleInput :=
  { connected := true, gcodeState := some "FINISH", mcPercent := some 100,
    layerNum := some 100, totalLayerNum := some 100, printError := none,
    snapshot := .error "connection reset",
    vision := .error "not reached", stopOk := true }

/-- Cycle input whose cached status carries hardware error code 1 on an
otherwise healthy first cycle (snapshot captured). -/
def hwErrorInput : CycleInput :=
  { connected := true, gcodeState := some "RUNNING", mcPercent := some 40,
    layerNum := some 5, totalLayerNum := some 100, printError := some 1,
    snapshot := .ok "snap2.jpg",
    vision := .error "not reached", stopOk := true }

/-- Cycle input whose cached status signals completion on an otherwise
healthy cycle (snapshot captured, no hardware error). -/
def finishInput : CycleInput :=
  { connected := true, gcodeState := some "FINISH", mcPercent := some 100,
    layerNum := some 100, totalLayerNum := some 100, printError := none,
    snapshot := .ok "snap3.jpg",
    vision := .error "not reached", stopOk := true }

/-- Cycle input of a healthy mid-print cycle whose vision call itself
errors. -/
def visionErrInput : CycleInput :=
  { connected := true, gcodeState := some "RUNNING", mcPercent := some 40,
    layerNum := some 5, totalLayerNum := some 100, printError := none,
    snapshot := .ok "snap4.jpg",
    vision := .error "HTTP 500 from provider", stopOk := true }

end Mon

/-! ## Helper lemmas -/

/-- Removing the first occurrence of a pattern that sits at the front of
the string drops exactly the pattern. -/
theorem Vision.replaceFirst_of_isPrefixOf (pat s : List Char)
    (h : pat.isPrefixOf s = true) : Vision.replaceFirst pat s = s.drop pat.length := by
  cases s with
  | nil =>
    have hp : pat = [] := by
      have := List.isPrefixOf_iff_prefix.mp h
      exact List.prefix_nil.mp this
    subst hp
    simp [Vision.replaceFirst]
  | cons c rest =>
    simp [Vision.replaceFirst, h]

/-- Lookup distributes over list append, preferring the left list. -/
theorem lookup_append {α : Type} (k : String) (l₁ l₂ : List (String × α)) :
    (l₁ ++ l₂).lookup k = ((l₁.lookup k).orElse (fun _ => l₂.lookup k)) := by
  induction l₁ with
  | nil => simp [List.lookup]
  | cons p t ih =>
    by_cases h : k == p.1
    · simp [List.lookup, h]
    · simp only [List.cons_append, List.lookup, h]
      simpa using ih

/-- A resolved response always carries the pending command's own sequence
identifier. -/
theorem Cmd.respondsTo_seqId {α : Type} (ty sid : String) (r : Cmd.Report α)
    (rd : Cmd.RespData α) (h : Cmd.respondsTo ty sid r = some rd) : rd.seqId = sid := by
  cases r with
  | junk => simp [Cmd.respondsTo] at h
  | obj fields =>
    simp only [Cmd.respondsTo] at h
    rcases hl : fields.lookup ty with _ | rd0
    · rw [hl] at h; simp at h
    · rw [hl] at h
      by_cases hs : rd0.seqId = sid
      · simp [hs] at h
        rw [← h]; exact hs
      · simp [hs] at h

/-! ## C10 — verdict parsing -/

/-- C10: the parsed verdict has failed = true exactly when the reply starts
with the fail prefix; in that case the reason is the remainder after
stripping the prefix and the optional pipe separator with surrounding
whitespace, with a fixed fallback when empty; otherwise the reason is the
full reply. -/
theorem c10_parse_verdict (reply : List Char) :
    ((Vision.parseVerdict reply).failed = true ↔ Vision.failPrefix.isPrefixOf reply = true)
    ∧ (Vision.failPrefix.isPrefixOf reply = true →
        (Vision.parseVerdict reply).reason =
          (if Vision.specRemainder reply = [] then Vision.fallbackReason
           else Vision.specRemainder reply))
    ∧ (Vision.failPrefix.isPrefixOf reply = false →
        (Vision.parseVerdict reply).reason = reply) := by
  by_cases h : Vision.failPrefix.isPrefixOf reply = true
  · refine ⟨by simp [Vision.parseVerdict, h], fun _ => ?_, fun hf => absurd h (by simp [hf])⟩
    simp [Vision.parseVerdict, h, Vision.specRemainder,
      Vision.replaceFirst_of_isPrefixOf _ _ h]
  · have hb : Vision.failPrefix.isPrefixOf reply = false := by
      cases hx : Vision.failPrefix.isPrefixOf reply
      · rfl
      · exact absurd hx h
    refine ⟨by simp [Vision.parseVerdict, hb], fun ht => absurd ht h, fun _ => ?_⟩
    simp [Vision.parseVerdict, hb]

/-- C10 witness: concrete failure and success replies. -/
theorem c10_parse_verdict_witness :
    (Vision.parseVerdict (String.toList "VERDICT: FAIL | layer shift")).reason =
      (if Vision.specRemainder (String.toList "VERDICT: FAIL | layer shift") = []
       then Vision.fallbackReason
       else Vision.specRemainder (String.toList "VERDICT: FAIL | layer shift"))
    ∧ (Vision.parseVerdict (String.toList "VERDICT: OK")).reason = String.toList "VERDICT: OK" :=
  ⟨(c10_parse_verdict _).2.1 (by decide), (c10_parse_verdict _).2.2 (by decide)⟩

/-! ## C3 — status cache shallow merge -/

/-- C3: replaying any arrival-ordered inbound message sequence through the
handler equals the iterative shallow merge of exactly the recognized
status sub-objects in arrival order; a field absent from the update leaves
the cached value, a field present overwrites it, and unparsable messages
or messages without a recognized status sub-object leave the cache
unchanged (the session keeps processing). -/
theorem c3_status_merge (α : Type) (msgs : List (Status.Inbound α))
    (cache upd : List (String × α)) (k : String) :
    (Status.replay cache msgs = Status.specMergeAll cache msgs)
    ∧ (upd.lookup k = none → (Status.mergeStatus cache upd).lookup k = cache.lookup k)
    ∧ (∀ v, upd.lookup k = some v → (Status.mergeStatus cache upd).lookup k = some v)
    ∧ (Status.handleMessage cache Status.Inbound.unparsable = cache)
    ∧ (∀ p mc, Status.recognize (Status.Inbound.parsed p mc) = none →
        Status.handleMessage cache (Status.Inbound.parsed p mc) = cache) := by
  refine ⟨?_, ?_, ?_, ?_, ?_⟩
  · induction msgs generalizing cache with
    | nil => simp [Status.replay, Status.specMergeAll]
    | cons m t ih =>
      cases hm : Status.recognize m with
      | none =>
        simp [Status.replay, Status.specMergeAll, List.filterMap_cons, hm,
          Status.handleMessage] at ih ⊢
        exact ih cache
      | some s =>
        simp [Status.replay, Status.specMergeAll, List.filterMap_cons, hm,
          Status.handleMessage] at ih ⊢
        exact ih (Status.mergeStatus cache s)
  · intro h
    simp [Status.mergeStatus, lookup_append, h]
  · intro v h
    simp [Status.mergeStatus, lookup_append, h]
  · simp [Status.handleMessage, Status.recognize]
  · intro p mc h
    simp [Status.handleMessage, h]

/-- C3 witness: a concrete replay with an overwrite, an untouched field, an
unparsable message, and a message without a status sub-object. -/
theorem c3_status_merge_witness :
    (Status.replay ([] : List (String × Nat))
        [Status.Inbound.parsed (some [("mc_percent", 10), ("layer_num", 1)]) none,
         Status.Inbound.unparsable,
         Status.Inbound.parsed none (some [("mc_percent", 55)]),
         Status.Inbound.parsed none none]
      = Status.specMergeAll []
        [Status.Inbound.parsed (some [("mc_percent", 10), ("layer_num", 1)]) none,
         Status.Inbound.unparsable,
         Status.Inbound.parsed none (some [("mc_percent", 55)]),
         Status.Inbound.parsed none none])
    ∧ (Status.mergeStatus [("layer_num", 1)] [("mc_percent", 55)]).lookup "layer_num" =
        ([("layer_num", (1 : Nat))] : List (String × Nat)).lookup "layer_num"
    ∧ (Status.mergeStatus [("mc_percent", 10), ("layer_num", 1)] [("mc_percent", 55)]).lookup
        "mc_percent" = some 55
    ∧ Status.handleMessage [("mc_percent", (10 : Nat))] Status.Inbound.unparsable
        = [("mc_percent", 10)]
    ∧ Status.handleMessage [("mc_percent", (10 : Nat))] (Status.Inbound.parsed none none)
        = [("mc_percent", 10)] :=
  ⟨(c3_status_merge Nat _ [] [] "").1,
   (c3_status_merge Nat [] _ _ "layer_num").2.1 (by decide),
   (c3_status_merge Nat [] _ _ "mc_percent").2.2.1 55 (by decide),
   (c3_status_merge Nat [] _ [] "").2.2.2.1,
   (c3_status_merge Nat [] _ [] "").2.2.2.2 none none (by decide)⟩

/-! ## C4 — correlation routing -/

/-- C4: a pending command with sequence identifier 0 resolves exactly on
the first inbound message carrying its own identifier — earlier messages
that do not respond to it, in particular any response for the concurrent
command with identifier 1, never resolve it — and it resolves with that
message's own response payload. -/
theorem c4_correlation (α : Type) (ty : String) (ms₁ : List (Cmd.Report α))
    (m : Cmd.Report α) (ms₂ : List (Cmd.Report α)) (rd : Cmd.RespData α) :
    ((∀ m' ∈ ms₁, Cmd.respondsTo ty "0" m' = none) →
      Cmd.respondsTo ty "0" m = some rd →
      (Cmd.findResponse ty "0" (ms₁ ++ m :: ms₂) = some rd ∧ rd.seqId = "0"))
    ∧ (∀ (fields : List (String × Cmd.RespData α)) (rd' : Cmd.RespData α),
        fields.lookup ty = some rd' → rd'.seqId = "1" →
        Cmd.respondsTo ty "0" (Cmd.Report.obj fields) = none) := by
  constructor
  · intro hnone hm
    refine ⟨?_, Cmd.respondsTo_seqId ty "0" m rd hm⟩
    unfold Cmd.findResponse
    rw [List.findSome?_append, List.findSome?_eq_none_iff.mpr hnone]
    simp [List.findSome?_cons, hm]
  · intro fields rd' hl hs
    simp only [Cmd.respondsTo]
    rw [hl]
    have hne : rd'.seqId ≠ "0" := by rw [hs]; decide
    simp [hne]

/-- C4 witness: with the response for command B (identifier 1) arriving
first, command A (identifier 0) resolves on its own later response. -/
theorem c4_correlation_witness :
    Cmd.findResponse "print" "0"
        [Cmd.Report.obj [("print", ⟨"1", (7 : Nat)⟩)],
         Cmd.Report.junk,
         Cmd.Report.obj [("print", ⟨"0", 42⟩)]]
      = some ⟨"0", 42⟩
    ∧ Cmd.respondsTo "print" "0" (Cmd.Report.obj [("print", ⟨"1", (7 : Nat)⟩)]) = none :=
  ⟨((c4_correlation Nat "print" [Cmd.Report.obj [("print", ⟨"1", 7⟩)], Cmd.Report.junk]
      (Cmd.Report.obj [("print", ⟨"0", 42⟩)]) [] ⟨"0", 42⟩).1 (by decide) (by decide)).1,
   (c4_correlation Nat "print" [] Cmd.Report.junk [] ⟨"0", 0⟩).2
     [("print", ⟨"1", 7⟩)] ⟨"1", 7⟩ (by decide) (by decide)⟩

/-! ## C5 — command timeout -/

/-- C5: an awaited command that receives no matching response strictly
before the fixed 10-unit deadline rejects with the timeout error naming
the command, and because its pending registration is removed at the
deadline, matching messages arriving at or after the deadline resolve
nothing — the outcome is the same timeout with or without them. -/
theorem c5_timeout (α : Type) (command seqId : String) (t0 : Nat)
    (events late : List (Cmd.TimedReport α))
    (h₁ : ∀ e ∈ events, e.time < t0 + Cmd.timeoutUnits →
        Cmd.respondsTo (Cmd.commandType command) seqId e.report = none)
    (h₂ : ∀ e ∈ late, t0 + Cmd.timeoutUnits ≤ e.time) :
    Cmd.runCommand command seqId t0 (events ++ late)
        = Cmd.Outcome.timedOut (Cmd.timeoutMsg command)
    ∧ Cmd.runCommand command seqId t0 events
        = Cmd.Outcome.timedOut (Cmd.timeoutMsg command) := by
  have hev : ∀ e ∈ events,
      (if e.time < t0 + Cmd.timeoutUnits
       then Cmd.respondsTo (Cmd.commandType command) seqId e.report
       else none) = none := by
    intro e he
    by_cases ht : e.time < t0 + Cmd.timeoutUnits
    · rw [if_pos ht]; exact h₁ e he ht
    · rw [if_neg ht]
  have hlt : ∀ e ∈ late,
      (if e.time < t0 + Cmd.timeoutUnits
       then Cmd.respondsTo (Cmd.commandType command) seqId e.report
       else none) = none := by
    intro e he
    rw [if_neg]
    exact Nat.not_lt.mpr (h₂ e he)
  constructor
  · unfold Cmd.runCommand
    rw [List.findSome?_eq_none_iff.mpr]
    intro e he
    rcases List.mem_append.mp he with h | h
    · exact hev e h
    · exact hlt e h
  · unfold Cmd.runCommand
    rw [List.findSome?_eq_none_iff.mpr hev]

/-- C5 witness: an unrelated early response plus a matching response
arriving exactly at the deadline still time out. -/
theorem c5_timeout_witness :
    Cmd.runCommand "print.stop" "0" 0
        [⟨3, Cmd.Report.obj [("print", ⟨"1", (5 : Nat)⟩)]⟩,
         ⟨10, Cmd.Report.obj [("print", ⟨"0", 9⟩)]⟩]
      = Cmd.Outcome.timedOut (Cmd.timeoutMsg "print.stop") :=
  (c5_timeout Nat "print.stop" "0" 0
      [⟨3, Cmd.Report.obj [("print", ⟨"1", 5⟩)]⟩]
      [⟨10, Cmd.Report.obj [("print", ⟨"0", 9⟩)]⟩]
      (by decide) (by decide)).1

/-! ## C1 — strike policy (the code has none) -/

/-- C1, evaluated on the code at the failing input: on the very first
monitor cycle, a single vision failure verdict already makes monitorCycle
record the failure and issue the stop command, and the monitor goes idle —
there is no consecutive-failure strike counter in PrintMonitor (the
failStrikes value that monitorStart passes is unused), contradicting the
claimed threshold of three consecutive failure verdicts. -/
theorem c1_single_vision_failure_aborts :
    (Mon.monitorCycle Mon.exMonitor Mon.visionFailInput).2 = ["print.stop"]
    ∧ (Mon.monitorCycle Mon.exMonitor Mon.visionFailInput).1.state.failureDetected = true
    ∧ (Mon.monitorCycle Mon.exMonitor Mon.visionFailInput).1.state.active = false
    ∧ (Mon.monitorCycle Mon.exMonitor Mon.visionFailInput).1.state.cycleCount = 1
    ∧ (Mon.monitorCycle Mon.exMonitor Mon.visionFailInput).1.state.failureReason
        = some "Vision: spaghetti detected" :=
  ⟨rfl, rfl, rfl, rfl, rfl⟩

/-! ## C2 — hardware failure path -/

/-- C2 counterexample: a cycle whose cached status carries hardware error
code 1 but whose snapshot capture fails issues no stop command and records
no failure — the capture failure makes the cycle return before the
hardware check, so the claim as stated (every such cycle aborts) is false
on the code. -/
theorem c2_hw_snapshot_counterexample :
    Mon.hwErrorSnapFailInput.printError = some 1
    ∧ (Mon.monitorCycle Mon.exMonitor Mon.hwErrorSnapFailInput).2 = []
    ∧ (Mon.monitorCycle Mon.exMonitor Mon.hwErrorSnapFailInput).1.state.failureDetected = false
    ∧ (Mon.monitorCycle Mon.exMonitor Mon.hwErrorSnapFailInput).1.state.active = true :=
  ⟨rfl, rfl, rfl, rfl⟩

/-- C2 amended: on every cycle that reaches the status checks — the client
connected and the snapshot captured — a truthy non-zero hardware error
code or the FAILED operational state bypasses the strike mechanism and
takes the abort path on that same cycle, whatever the prior state: the
failure is recorded with the hardware reason, the stop command is issued,
and the monitor transitions to idle with its timer cleared. -/
theorem c2_hw_failure_aborts (m : Mon.PrintMonitor) (i : Mon.CycleInput) (p : String)
    (hact : m.state.active = true) (hcon : i.connected = true)
    (hsnap : i.snapshot = Except.ok p)
    (hfail : Mon.printErrorTruthy i.printError = true
      ∨ Mon.jsOrS i.gcodeState "UNKNOWN" = "FAILED") :
    (Mon.monitorCycle m i).2 = ["print.stop"]
    ∧ (Mon.monitorCycle m i).1.state.failureDetected = true
    ∧ (Mon.monitorCycle m i).1.state.failureReason
        = some (Mon.mqttFailureReason i.printError)
    ∧ (Mon.monitorCycle m i).1.state.active = false
    ∧ (Mon.monitorCycle m i).1.timerSet = false := by
  cases hstop : i.stopOk <;>
    simp [Mon.monitorCycle, hact, hcon, hsnap, hfail, hstop,
      Mon.handleFailure, Mon.stopMonitor]

/-- C2 witness: hardware error code 1 on the very first cycle of a fresh
monitor aborts at once. -/
theorem c2_hw_failure_aborts_witness :
    (Mon.monitorCycle Mon.exMonitor Mon.hwErrorInput).2 = ["print.stop"]
    ∧ (Mon.monitorCycle Mon.exMonitor Mon.hwErrorInput).1.state.failureDetected = true
    ∧ (Mon.monitorCycle Mon.exMonitor Mon.hwErrorInput).1.state.failureReason
        = some (Mon.mqttFailureReason Mon.hwErrorInput.printError)
    ∧ (Mon.monitorCycle Mon.exMonitor Mon.hwErrorInput).1.state.active = false
    ∧ (Mon.monitorCycle Mon.exMonitor Mon.hwErrorInput).1.timerSet = false :=
  c2_hw_failure_aborts Mon.exMonitor Mon.hwErrorInput "snap2.jpg" rfl rfl rfl
    (Or.inl (by decide))

/-! ## C8 — clean stop on completion -/

/-- C8 counterexample: a cycle whose cached status signals completion but
whose snapshot capture fails does not stop the monitor — the capture
failure makes the cycle return before the completion check, so the claim
as stated (every completion cycle stops the monitor) is false on the
code. -/
theorem c8_finish_snapshot_counterexample :
    Mon.finishSnapFailInput.gcodeState = some "FINISH"
    ∧ (Mon.monitorCycle Mon.exMonitor Mon.finishSnapFailInput).1.state.active = true
    ∧ (Mon.monitorCycle Mon.exMonitor Mon.finishSnapFailInput).1.timerSet = true
    ∧ (Mon.monitorCycle Mon.exMonitor Mon.finishSnapFailInput).2 = [] :=
  ⟨rfl, rfl, rfl, rfl⟩

/-- C8 amended: on every cycle that reaches the status checks — the client
connected and the snapshot captured — a cached FINISH operational state
with no truthy hardware error stops the monitor cleanly: the cycle timer
is torn down, the session goes idle with failureDetected still false, and
no command is issued. -/
theorem c8_finish_stops_cleanly (m : Mon.PrintMonitor) (i : Mon.CycleInput) (p : String)
    (hact : m.state.active = true) (hcon : i.connected = true)
    (hsnap : i.snapshot = Except.ok p)
    (hpe : Mon.printErrorTruthy i.printError = false)
    (hfin : Mon.jsOrS i.gcodeState "UNKNOWN" = "FINISH")
    (hfd : m.state.failureDetected = false) :
    (Mon.monitorCycle m i).2 = []
    ∧ (Mon.monitorCycle m i).1.state.active = false
    ∧ (Mon.monitorCycle m i).1.timerSet = false
    ∧ (Mon.monitorCycle m i).1.state.failureDetected = false
    ∧ (Mon.monitorCycle m i).1.state.emergencyStopSent = m.state.emergencyStopSent := by
  have hnf : ¬ (Mon.printErrorTruthy i.printError = true
      ∨ Mon.jsOrS i.gcodeState "UNKNOWN" = "FAILED") := by
    rintro (h | h)
    · rw [hpe] at h; exact absurd h (by decide)
    · rw [hfin] at h; exact absurd h (by decide)
  simp [Mon.monitorCycle, hact, hcon, hsnap, hnf, hpe, hfin, Mon.stopMonitor, hfd]

/-- C8 witness: a completion state on a healthy cycle of a fresh monitor
stops it with no abort. -/
theorem c8_finish_stops_cleanly_witness :
    (Mon.monitorCycle Mon.exMonitor Mon.finishInput).2 = []
    ∧ (Mon.monitorCycle Mon.exMonitor Mon.finishInput).1.state.active = false
    ∧ (Mon.monitorCycle Mon.exMonitor Mon.finishInput).1.timerSet = false
    ∧ (Mon.monitorCycle Mon.exMonitor Mon.finishInput).1.state.failureDetected = false
    ∧ (Mon.monitorCycle Mon.exMonitor Mon.finishInput).1.state.emergencyStopSent
        = Mon.exMonitor.state.emergencyStopSent :=
  c8_finish_stops_cleanly Mon.exMonitor Mon.finishInput "snap3.jpg" rfl rfl rfl
    (by decide) (by decide) rfl

/-! ## C9 — non-fatal cycle errors -/

/-- C9: a failed snapshot capture, and likewise a failed vision call on an
otherwise healthy vision-eligible cycle, only append the error to the
session log: the monitor stays active with its timer, failureDetected is
unchanged (so still false when it was false), and no command is issued. -/
theorem c9_nonfatal_errors (m : Mon.PrintMonitor) (i : Mon.CycleInput) (e : String) :
    (m.state.active = true → i.connected = true → i.snapshot = Except.error e →
      ((Mon.monitorCycle m i).2 = []
        ∧ (Mon.monitorCycle m i).1.state.active = true
        ∧ (Mon.monitorCycle m i).1.timerSet = m.timerSet
        ∧ (Mon.monitorCycle m i).1.state.failureDetected = m.state.failureDetected
        ∧ (Mon.monitorCycle m i).1.state.errors
            = m.state.errors ++ [Mon.snapshotFailedMsg (m.state.cycleCount + 1) e]))
    ∧ (∀ p, m.state.active = true → i.connected = true → i.snapshot = Except.ok p →
        Mon.printErrorTruthy i.printError = false →
        Mon.jsOrS i.gcodeState "UNKNOWN" ≠ "FAILED" →
        Mon.jsOrS i.gcodeState "UNKNOWN" ≠ "FINISH" →
        m.config.minLayerForVision ≤ Mon.jsOrN i.layerNum 0 →
        i.vision = Except.error e →
        ((Mon.monitorCycle m i).2 = []
          ∧ (Mon.monitorCycle m i).1.state.active = true
          ∧ (Mon.monitorCycle m i).1.timerSet = m.timerSet
          ∧ (Mon.monitorCycle m i).1.state.failureDetected = m.state.failureDetected
          ∧ (Mon.monitorCycle m i).1.state.errors
              = m.state.errors ++ [Mon.visionErrorMsg (m.state.cycleCount + 1) e])) := by
  constructor
  · intro hact hcon hsnap
    simp [Mon.monitorCycle, hact, hcon, hsnap]
  · intro p hact hcon hsnap hpe hnfail hnfin hlay hvis
    have hnf : ¬ (Mon.printErrorTruthy i.printError = true
        ∨ Mon.jsOrS i.gcodeState "UNKNOWN" = "FAILED") := by
      rintro (h | h)
      · rw [hpe] at h; exact absurd h (by decide)
      · exact hnfail h
    simp [Mon.monitorCycle, hact, hcon, hsnap, hnf, hpe, hnfail, hnfin, hlay, hvis]

/-- C9 witness: a snapshot failure and a vision-call failure on concrete
healthy cycles of a fresh monitor. -/
theorem c9_nonfatal_errors_witness :
    ((Mon.monitorCycle Mon.exMonitor Mon.finishSnapFailInput).2 = []
      ∧ (Mon.monitorCycle Mon.exMonitor Mon.finishSnapFailInput).1.state.active = true
      ∧ (Mon.monitorCycle Mon.exMonitor Mon.finishSnapFailInput).1.timerSet
          = Mon.exMonitor.timerSet
      ∧ (Mon.monitorCycle Mon.exMonitor Mon.finishSnapFailInput).1.state.failureDetected
          = Mon.exMonitor.state.failureDetected
      ∧ (Mon.monitorCycle Mon.exMonitor Mon.finishSnapFailInput).1.state.errors
          = Mon.exMonitor.state.errors
            ++ [Mon.snapshotFailedMsg (Mon.exMonitor.state.cycleCount + 1) "connection reset"])
    ∧ ((Mon.monitorCycle Mon.exMonitor Mon.visionErrInput).2 = []
      ∧ (Mon.monitorCycle Mon.exMonitor Mon.visionErrInput).1.state.active = true
      ∧ (Mon.monitorCycle Mon.exMonitor Mon.visionErrInput).1.timerSet
          = Mon.exMonitor.timerSet
      ∧ (Mon.monitorCycle Mon.exMonitor Mon.visionErrInput).1.state.failureDetected
          = Mon.exMonitor.state.failureDetected
      ∧ (Mon.monitorCycle Mon.exMonitor Mon.visionErrInput).1.state.errors
          = Mon.exMonitor.state.errors
            ++ [Mon.visionErrorMsg (Mon.exMonitor.state.cycleCount + 1)
                  "HTTP 500 from provider"]) :=
  ⟨(c9_nonfatal_errors Mon.exMonitor Mon.finishSnapFailInput "connection reset").1
      rfl rfl rfl,
   (c9_nonfatal_errors Mon.exMonitor Mon.visionErrInput "HTTP 500 from provider").2
      "snap4.jpg" rfl rfl rfl (by decide) (by decide) (by decide) (by decide) rfl⟩

/-! ## Camera helper lemmas -/

/-- Decoding the payload length reads only the first three bytes, so a
buffer extension does not change it. -/
theorem Camera.le3_append (l b : List Nat) (h : 3 ≤ l.length) :
    Camera.le3 (l ++ b) = Camera.le3 l := by
  have h0 : (0 : Nat) < l.length := by omega
  have h1 : (1 : Nat) < l.length := by omega
  have h2 : (2 : Nat) < l.length := by omega
  rw [Camera.le3, Camera.le3, List.getD_append l b 0 0 h0, List.getD_append l b 0 1 h1,
    List.getD_append l b 0 2 h2]

/-- Length of the frame buffer after one payload step. -/
theorem Camera.payloadBuf_length (s : Camera.CapState) (buf : List Nat) :
    (Camera.payloadBuf s buf).length = buf.length + Camera.payloadTake s buf := by
  simp only [Camera.payloadBuf, Camera.payloadTake, List.length_append, List.length_take]
  omega

/-- The initial state satisfies the frame-size invariant. -/
theorem Camera.inv_initState : Camera.Inv Camera.initState := by
  intro b hb
  simp [Camera.initState] at hb

/-- Appending a chunk preserves the frame-size invariant. -/
theorem Camera.inv_appendP (s : Camera.CapState) (b : List Nat) (h : Camera.Inv s) :
    Camera.Inv (Camera.appendP s b) := by
  intro x hx
  exact h x hx

/-- The state after a header step satisfies the frame-size invariant. -/
theorem Camera.inv_headerNext (s : Camera.CapState) : Camera.Inv (Camera.headerNext s) := by
  intro x hx
  simp [Camera.headerNext] at hx
  subst hx
  simp

/-- The state after discarding an invalid frame satisfies the invariant. -/
theorem Camera.inv_invalidNext (s : Camera.CapState) (buf : List Nat) :
    Camera.Inv (Camera.invalidNext s buf) := by
  intro x hx
  simp [Camera.invalidNext] at hx

/-- The state after an incomplete payload step satisfies the invariant. -/
theorem Camera.inv_growNext (s : Camera.CapState) (buf : List Nat)
    (h : Camera.Inv s) (hfb : s.frameBuf = some buf) :
    Camera.Inv (Camera.growNext s buf) := by
  intro x hx
  simp [Camera.growNext] at hx
  subst hx
  have hle := h buf hfb
  rw [Camera.payloadBuf_length]
  simp [Camera.growNext, Camera.payloadTake]
  omega

/-- A header step strictly decreases the loop measure. -/
theorem Camera.muC_headerNext (s : Camera.CapState) (hfb : s.frameBuf = none)
    (hge : 16 ≤ s.pending.length) : Camera.muC (Camera.headerNext s) < Camera.muC s := by
  simp [Camera.muC, Camera.headerNext, hfb, List.length_drop]
  split <;> omega

/-- Discarding an invalid frame strictly decreases the loop measure. -/
theorem Camera.muC_invalidNext (s : Camera.CapState) (buf : List Nat)
    (hfb : s.frameBuf = some buf) : Camera.muC (Camera.invalidNext s buf) < Camera.muC s := by
  have ht : Camera.payloadTake s buf ≤ s.pending.length := by
    simp [Camera.payloadTake]
  simp only [Camera.muC, Camera.invalidNext, Camera.payloadPend, List.length_drop, hfb]
  split <;> omega

/-- An incomplete payload step strictly decreases the loop measure on
states satisfying the invariant with a non-empty pending buffer. -/
theorem Camera.muC_growNext (s : Camera.CapState) (buf : List Nat)
    (hInv : Camera.Inv s) (hfb : s.frameBuf = some buf) (hp : s.pending ≠ [])
    (hne : (Camera.payloadBuf s buf).length ≠ s.payloadSize) :
    Camera.muC (Camera.growNext s buf) < Camera.muC s := by
  have hlen : 0 < s.pending.length := List.length_pos.mpr hp
  have hle := hInv buf hfb
  have hbl := Camera.payloadBuf_length s buf
  rw [hbl] at hne
  have htk : Camera.payloadTake s buf = min (s.payloadSize - buf.length) s.pending.length := rfl
  simp only [Camera.muC, Camera.growNext, Camera.payloadPend, List.length_drop, hfb, hbl]
  rw [htk] at hne ⊢
  split <;> split <;> omega

/-- Unfolding of one loop iteration. -/
theorem Camera.drainF_succ (n : Nat) (s : Camera.CapState) :
    Camera.drainF (n + 1) s =
      if s.done.isSome then s
      else if s.pending = [] then s
      else
        match s.frameBuf with
        | none =>
          if s.pending.length < 16 then s
          else Camera.drainF n (Camera.headerNext s)
        | some buf =>
          if (Camera.payloadBuf s buf).length = s.payloadSize then
            if Camera.validStartEnd (Camera.payloadBuf s buf) then Camera.doneState s buf
            else Camera.drainF n (Camera.invalidNext s buf)
          else Camera.drainF n (Camera.growNext s buf) := rfl

/-- Any fuel above the loop measure computes the same quiescent state, on
states satisfying the invariant. -/
theorem Camera.drainF_stable : ∀ (n : Nat) (s : Camera.CapState),
    Camera.Inv s → Camera.muC s < n → Camera.drainF n s = Camera.drain s := by
  intro n
  induction n using Nat.strong_induction_on with
  | _ n ih =>
    intro s hInv hmu
    obtain ⟨m, rfl⟩ : ∃ m, n = m + 1 := ⟨n - 1, by omega⟩
    rw [Camera.drainF_succ]
    by_cases hd : s.done.isSome
    · rw [Camera.drain, Camera.drainF_succ]; simp [hd]
    · by_cases hp : s.pending = []
      · rw [Camera.drain, Camera.drainF_succ]; simp [hd, hp]
      · cases hfb : s.frameBuf with
        | none =>
          by_cases hlt : s.pending.length < 16
          · rw [Camera.drain, Camera.drainF_succ]; simp [hd, hp, hfb, hlt]
          · have hge := Nat.not_lt.mp hlt
            have hdec := Camera.muC_headerNext s hfb hge
            have h1 : Camera.drain s = Camera.drainF (Camera.muC s) (Camera.headerNext s) := by
              rw [Camera.drain, Camera.drainF_succ]; simp [hd, hp, hfb, hlt]
            rw [h1]
            simp only [hd, hp, hfb, hlt]
            simp
            rw [ih m (by omega) (Camera.headerNext s) (Camera.inv_headerNext s) (by omega),
              ih (Camera.muC s) (by omega) (Camera.headerNext s) (Camera.inv_headerNext s)
                (by omega)]
        | some buf =>
          by_cases hc : (Camera.payloadBuf s buf).length = s.payloadSize
          · by_cases hv : Camera.validStartEnd (Camera.payloadBuf s buf) = true
            · rw [Camera.drain, Camera.drainF_succ]; simp [hd, hp, hfb, hc, hv]
            · have hvf : Camera.validStartEnd (Camera.payloadBuf s buf) = false := by
                cases hx : Camera.validStartEnd (Camera.payloadBuf s buf)
                · rfl
                · exact absurd hx hv
              have hdec := Camera.muC_invalidNext s buf hfb
              have h1 : Camera.drain s
                  = Camera.drainF (Camera.muC s) (Camera.invalidNext s buf) := by
                rw [Camera.drain, Camera.drainF_succ]; simp [hd, hp, hfb, hc, hvf]
              rw [h1]
              simp only [hd, hp, hfb, hc, hvf]
              simp
              rw [ih m (by omega) (Camera.invalidNext s buf) (Camera.inv_invalidNext s buf)
                  (by omega),
                ih (Camera.muC s) (by omega) (Camera.invalidNext s buf)
                  (Camera.inv_invalidNext s buf) (by omega)]
          · have hdec := Camera.muC_growNext s buf hInv hfb hp hc
            have h1 : Camera.drain s
                = Camera.drainF (Camera.muC s) (Camera.growNext s buf) := by
              rw [Camera.drain, Camera.drainF_succ]; simp [hd, hp, hfb, hc]
            rw [h1]
            simp only [hd, hp, hfb, hc]
            simp
            rw [ih m (by omega) (Camera.growNext s buf)
                (Camera.inv_growNext s buf hInv hfb) (by omega),
              ih (Camera.muC s) (by omega) (Camera.growNext s buf)
                (Camera.inv_growNext s buf hInv hfb) (by omega)]

/-- A state with a returned frame is left unchanged by the loop. -/
theorem Camera.drain_done (s : Camera.CapState) (h : s.done.isSome) :
    Camera.drain s = s := by
  rw [Camera.drain, Camera.drainF_succ]; simp [h]

/-- A state with no pending bytes is left unchanged by the loop. -/
theorem Camera.drain_nil (s : Camera.CapState) (h : s.pending = []) :
    Camera.drain s = s := by
  rw [Camera.drain, Camera.drainF_succ]
  by_cases hd : s.done.isSome <;> simp [hd, h]

/-- While scanning for a header, fewer than 16 pending bytes leave the
state unchanged (the loop breaks). -/
theorem Camera.drain_header_small (s : Camera.CapState) (hfb : s.frameBuf = none)
    (hlt : s.pending.length < 16) : Camera.drain s = s := by
  rw [Camera.drain, Camera.drainF_succ]
  by_cases hd : s.done.isSome
  · simp [hd]
  · by_cases hp : s.pending = [] <;> simp [hd, hp, hfb, hlt]

/-- Consuming a full 16-byte header. -/
theorem Camera.drain_header_step (s : Camera.CapState) (hInv : Camera.Inv s)
    (hd : s.done = none) (hfb : s.frameBuf = none) (hge : 16 ≤ s.pending.length) :
    Camera.drain s = Camera.drain (Camera.headerNext s) := by
  have hp : s.pending ≠ [] := by
    intro h; rw [h] at hge; simp at hge
  rw [Camera.drain, Camera.drainF_succ]
  simp [hd, hp, hfb, Nat.not_lt.mpr hge]
  exact Camera.drainF_stable (Camera.muC s) (Camera.headerNext s) (Camera.inv_headerNext s)
    (Camera.muC_headerNext s hfb hge)

/-- A completed frame passing the marker check ends the loop with the
payload returned. -/
theorem Camera.drain_payload_done (s : Camera.CapState) (buf : List Nat)
    (hd : s.done = none) (hp : s.pending ≠ []) (hfb : s.frameBuf = some buf)
    (hc : (Camera.payloadBuf s buf).length = s.payloadSize)
    (hv : Camera.validStartEnd (Camera.payloadBuf s buf) = true) :
    Camera.drain s = Camera.doneState s buf := by
  rw [Camera.drain, Camera.drainF_succ]
  simp [hd, hp, hfb, hc, hv]

/-- A completed frame failing the marker check is discarded and scanning
resumes at the next header. -/
theorem Camera.drain_payload_invalid (s : Camera.CapState) (buf : List Nat)
    (hd : s.done = none) (hp : s.pending ≠ []) (hfb : s.frameBuf = some buf)
    (hc : (Camera.payloadBuf s buf).length = s.payloadSize)
    (hv : Camera.validStartEnd (Camera.payloadBuf s buf) = false) :
    Camera.drain s = Camera.drain (Camera.invalidNext s buf) := by
  rw [Camera.drain, Camera.drainF_succ]
  simp only [hd, hp, hfb, hc, hv]
  simp
  exact Camera.drainF_stable (Camera.muC s) (Camera.invalidNext s buf)
    (Camera.inv_invalidNext s buf) (Camera.muC_invalidNext s buf hfb)

/-- An incomplete payload step moves the available bytes into the frame. -/
theorem Camera.drain_payload_grow (s : Camera.CapState) (buf : List Nat)
    (hInv : Camera.Inv s) (hd : s.done = none) (hp : s.pending ≠ [])
    (hfb : s.frameBuf = some buf)
    (hc : (Camera.payloadBuf s buf).length ≠ s.payloadSize) :
    Camera.drain s = Camera.drain (Camera.growNext s buf) := by
  rw [Camera.drain, Camera.drainF_succ]
  simp only [hd, hp, hfb, hc]
  simp [hc]
  exact Camera.drainF_stable (Camera.muC s) (Camera.growNext s buf)
    (Camera.inv_growNext s buf hInv hfb) (Camera.muC_growNext s buf hInv hfb hp hc)

/-- Appending the empty chunk changes nothing. -/
theorem Camera.appendP_nil (s : Camera.CapState) : Camera.appendP s [] = s := by
  simp [Camera.appendP]

/-- The header step commutes with appending further bytes, because it
consumes only the first 16 pending bytes. -/
theorem Camera.headerNext_appendP (s : Camera.CapState) (b : List Nat)
    (hge : 16 ≤ s.pending.length) :
    Camera.headerNext (Camera.appendP s b) = Camera.appendP (Camera.headerNext s) b := by
  simp [Camera.headerNext, Camera.appendP, List.drop_append_of_le_length hge,
    Camera.le3_append s.pending b (by omega)]



/-- Two parser states with equal components are equal. -/
theorem Camera.capStateExt (x y : Camera.CapState) (h1 : x.pending = y.pending)
    (h2 : x.payloadSize = y.payloadSize) (h3 : x.frameBuf = y.frameBuf)
    (h4 : x.done = y.done) : x = y := by
  cases x; cases y; simp_all

/-- Central incrementality lemma: running the loop, then feeding a chunk,
reaches the same returned payload as appending the chunk first and running
the loop once — and the full states agree whenever no frame has been
returned yet. -/
theorem Camera.feed_drain_append : ∀ (N : Nat) (s : Camera.CapState),
    Camera.muC s ≤ N → Camera.Inv s → s.done = none → ∀ b : List Nat,
    (Camera.feed (Camera.drain s) b).done = (Camera.drain (Camera.appendP s b)).done
    ∧ ((Camera.drain (Camera.appendP s b)).done = none →
        Camera.feed (Camera.drain s) b = Camera.drain (Camera.appendP s b)) := by
  intro N
  induction N using Nat.strong_induction_on with
  | _ N ih =>
    intro s hN hInv hd b
    by_cases hp : s.pending = []
    · rw [Camera.drain_nil s hp]
      simp [Camera.feed, hd]
    · cases hfb : s.frameBuf with
      | none =>
        by_cases hlt : s.pending.length < 16
        · rw [Camera.drain_header_small s hfb hlt]
          simp [Camera.feed, hd]
        · have hge := Nat.not_lt.mp hlt
          have hdec := Camera.muC_headerNext s hfb hge
          rw [Camera.drain_header_step s hInv hd hfb hge]
          have hgeb : 16 ≤ (Camera.appendP s b).pending.length := by
            simp [Camera.appendP]; omega
          rw [Camera.drain_header_step (Camera.appendP s b) (Camera.inv_appendP s b hInv)
            hd hfb hgeb]
          rw [Camera.headerNext_appendP s b hge]
          exact ih (Camera.muC (Camera.headerNext s)) (by omega) (Camera.headerNext s)
            le_rfl (Camera.inv_headerNext s) rfl b
      | some buf =>
        have hIb := hInv buf hfb
        have hbl := Camera.payloadBuf_length s buf
        have hpb : (Camera.appendP s b).pending ≠ [] := by
          simp [Camera.appendP, hp]
        have htkmin : Camera.payloadTake s buf
            = min (s.payloadSize - buf.length) s.pending.length := rfl
        by_cases hc : (Camera.payloadBuf s buf).length = s.payloadSize
        · have htake : Camera.payloadTake s buf = s.payloadSize - buf.length := by omega
          have hneed : s.payloadSize - buf.length ≤ s.pending.length := by omega
          have htkb : Camera.payloadTake (Camera.appendP s b) buf
              = Camera.payloadTake s buf := by
            unfold Camera.payloadTake
            show min (s.payloadSize - buf.length) (s.pending ++ b).length
              = min (s.payloadSize - buf.length) s.pending.length
            rw [List.length_append]
            omega
          have hbufb : Camera.payloadBuf (Camera.appendP s b) buf
              = Camera.payloadBuf s buf := by
            unfold Camera.payloadBuf
            rw [htkb]
            show buf ++ (s.pending ++ b).take (Camera.payloadTake s buf)
              = buf ++ s.pending.take (Camera.payloadTake s buf)
            rw [List.take_append_of_le_length (by omega)]
          have hpendb : Camera.payloadPend (Camera.appendP s b) buf
              = Camera.payloadPend s buf ++ b := by
            unfold Camera.payloadPend
            rw [htkb]
            show (s.pending ++ b).drop (Camera.payloadTake s buf)
              = s.pending.drop (Camera.payloadTake s buf) ++ b
            rw [List.drop_append_of_le_length (by omega)]
          by_cases hv : Camera.validStartEnd (Camera.payloadBuf s buf) = true
          · rw [Camera.drain_payload_done s buf hd hp hfb hc hv]
            rw [Camera.drain_payload_done (Camera.appendP s b) buf hd hpb hfb
              (by rw [hbufb]; exact hc) (by rw [hbufb]; exact hv)]
            constructor
            · simp [Camera.feed, Camera.doneState, hbufb]
            · intro hcontra
              simp [Camera.doneState] at hcontra
          · have hvf : Camera.validStartEnd (Camera.payloadBuf s buf) = false := by
              cases hx : Camera.validStartEnd (Camera.payloadBuf s buf)
              · rfl
              · exact absurd hx hv
            have hdec := Camera.muC_invalidNext s buf hfb
            rw [Camera.drain_payload_invalid s buf hd hp hfb hc hvf]
            rw [Camera.drain_payload_invalid (Camera.appendP s b) buf hd hpb hfb
              (by rw [hbufb]; exact hc) (by rw [hbufb]; exact hvf)]
            have heq : Camera.invalidNext (Camera.appendP s b) buf
                = Camera.appendP (Camera.invalidNext s buf) b :=
              Camera.capStateExt (Camera.invalidNext (Camera.appendP s b) buf)
                (Camera.appendP (Camera.invalidNext s buf) b) hpendb rfl rfl rfl
            rw [heq]
            exact ih (Camera.muC (Camera.invalidNext s buf)) (by omega)
              (Camera.invalidNext s buf) le_rfl (Camera.inv_invalidNext s buf) rfl b
        · have hlen0 : 0 < s.pending.length := List.length_pos.mpr hp
          have hlt : s.pending.length < s.payloadSize - buf.length := by
            by_contra hge2
            apply hc
            omega
          have htake : Camera.payloadTake s buf = s.pending.length := by omega
          have hpp : Camera.payloadPend s buf = [] := by
            unfold Camera.payloadPend
            rw [htake]
            exact List.drop_length s.pending
          have hbb : Camera.payloadBuf s buf = buf ++ s.pending := by
            unfold Camera.payloadBuf
            rw [htake, List.take_length]
          rw [Camera.drain_payload_grow s buf hInv hd hp hfb hc]
          have hgpend : (Camera.growNext s buf).pending = [] := hpp
          rw [Camera.drain_nil _ hgpend]
          have hT1 : (Camera.appendP (Camera.growNext s buf) b).pending = b := by
            show Camera.payloadPend s buf ++ b = b
            rw [hpp]
            simp
          have hT3 : (Camera.appendP (Camera.growNext s buf) b).frameBuf
              = some (buf ++ s.pending) := by
            show some (Camera.payloadBuf s buf) = some (buf ++ s.pending)
            rw [hbb]
          have hT : Camera.appendP (Camera.growNext s buf) b
              = (⟨b, s.payloadSize, some (buf ++ s.pending), none⟩ : Camera.CapState) :=
            Camera.capStateExt (Camera.appendP (Camera.growNext s buf) b)
              (⟨b, s.payloadSize, some (buf ++ s.pending), none⟩ : Camera.CapState)
              hT1 rfl hT3 rfl
          have hgd : (Camera.growNext s buf).done.isSome = false := rfl
          have hfeed : Camera.feed (Camera.growNext s buf) b
              = Camera.drain (⟨b, s.payloadSize, some (buf ++ s.pending), none⟩
                  : Camera.CapState) := by
            unfold Camera.feed
            rw [hT]
            simp [hgd]
          rw [hfeed]
          by_cases hb : b = []
          · subst hb
            rw [Camera.drain_nil _ (show (⟨([] : List Nat), s.payloadSize,
                some (buf ++ s.pending), none⟩ : Camera.CapState).pending = [] from rfl)]
            rw [Camera.appendP_nil, Camera.drain_payload_grow s buf hInv hd hp hfb hc,
              Camera.drain_nil _ hgpend]
            have hg1 : (⟨([] : List Nat), s.payloadSize, some (buf ++ s.pending), none⟩
                : Camera.CapState).pending = (Camera.growNext s buf).pending := by
              show ([] : List Nat) = Camera.payloadPend s buf
              rw [hpp]
            have hg3 : (⟨([] : List Nat), s.payloadSize, some (buf ++ s.pending), none⟩
                : Camera.CapState).frameBuf = (Camera.growNext s buf).frameBuf := by
              show some (buf ++ s.pending) = some (Camera.payloadBuf s buf)
              rw [hbb]
            have hgw : (⟨([] : List Nat), s.payloadSize, some (buf ++ s.pending), none⟩
                  : Camera.CapState) = Camera.growNext s buf :=
              Camera.capStateExt (⟨([] : List Nat), s.payloadSize,
                some (buf ++ s.pending), none⟩ : Camera.CapState)
                (Camera.growNext s buf) hg1 rfl hg3 rfl
            rw [hgw]
            exact ⟨rfl, fun _ => rfl⟩
          · have hK : Camera.payloadTake (Camera.appendP s b) buf
                = s.pending.length
                  + Camera.payloadTake (⟨b, s.payloadSize, some (buf ++ s.pending), none⟩
                      : Camera.CapState) (buf ++ s.pending) := by
              unfold Camera.payloadTake
              show min (s.payloadSize - buf.length) (s.pending ++ b).length
                = s.pending.length
                  + min (s.payloadSize - (buf ++ s.pending).length) b.length
              rw [List.length_append, List.length_append]
              omega
            have e1 : Camera.payloadBuf (Camera.appendP s b) buf
                = Camera.payloadBuf (⟨b, s.payloadSize, some (buf ++ s.pending), none⟩
                    : Camera.CapState) (buf ++ s.pending) := by
              unfold Camera.payloadBuf
              rw [hK]
              show buf ++ (s.pending ++ b).take (s.pending.length
                  + Camera.payloadTake (⟨b, s.payloadSize, some (buf ++ s.pending), none⟩
                      : Camera.CapState) (buf ++ s.pending))
                = (buf ++ s.pending)
                  ++ b.take (Camera.payloadTake (⟨b, s.payloadSize,
                      some (buf ++ s.pending), none⟩ : Camera.CapState) (buf ++ s.pending))
              rw [List.take_append, List.append_assoc]
            have e2 : Camera.payloadPend (Camera.appendP s b) buf
                = Camera.payloadPend (⟨b, s.payloadSize, some (buf ++ s.pending), none⟩
                    : Camera.CapState) (buf ++ s.pending) := by
              unfold Camera.payloadPend
              rw [hK]
              show (s.pending ++ b).drop (s.pending.length
                  + Camera.payloadTake (⟨b, s.payloadSize, some (buf ++ s.pending), none⟩
                      : Camera.CapState) (buf ++ s.pending))
                = b.drop (Camera.payloadTake (⟨b, s.payloadSize,
                    some (buf ++ s.pending), none⟩ : Camera.CapState) (buf ++ s.pending))
              rw [List.drop_append]
            have hInvT : Camera.Inv (⟨b, s.payloadSize, some (buf ++ s.pending), none⟩
                : Camera.CapState) := by
              intro x hx
              injection hx with hx2
              subst hx2
              show (buf ++ s.pending).length ≤ s.payloadSize
              rw [List.length_append]
              omega
            by_cases hcc : (Camera.payloadBuf (Camera.appendP s b) buf).length
                = s.payloadSize
            · by_cases hvv : Camera.validStartEnd
                  (Camera.payloadBuf (Camera.appendP s b) buf) = true
              · rw [Camera.drain_payload_done (Camera.appendP s b) buf hd hpb hfb hcc hvv]
                rw [Camera.drain_payload_done _ (buf ++ s.pending) rfl hb rfl
                  (by rw [← e1]; exact hcc) (by rw [← e1]; exact hvv)]
                constructor
                · simp [Camera.doneState, e1]
                · intro hcontra
                  simp [Camera.doneState] at hcontra
              · have hvf2 : Camera.validStartEnd
                    (Camera.payloadBuf (Camera.appendP s b) buf) = false := by
                  cases hx : Camera.validStartEnd (Camera.payloadBuf (Camera.appendP s b) buf)
                  · rfl
                  · exact absurd hx hvv
                rw [Camera.drain_payload_invalid (Camera.appendP s b) buf hd hpb hfb
                  hcc hvf2]
                rw [Camera.drain_payload_invalid _ (buf ++ s.pending) rfl hb rfl
                  (by rw [← e1]; exact hcc) (by rw [← e1]; exact hvf2)]
                have heq2 : Camera.invalidNext (Camera.appendP s b) buf
                    = Camera.invalidNext (⟨b, s.payloadSize, some (buf ++ s.pending), none⟩
                        : Camera.CapState) (buf ++ s.pending) :=
                  Camera.capStateExt (Camera.invalidNext (Camera.appendP s b) buf)
                    (Camera.invalidNext (⟨b, s.payloadSize, some (buf ++ s.pending), none⟩
                      : Camera.CapState) (buf ++ s.pending)) e2 rfl rfl rfl
                rw [heq2]
                exact ⟨rfl, fun _ => rfl⟩
            · rw [Camera.drain_payload_grow (Camera.appendP s b) buf
                (Camera.inv_appendP s b hInv) hd hpb hfb hcc]
              rw [Camera.drain_payload_grow _ (buf ++ s.pending) hInvT rfl hb rfl
                (by rw [← e1]; exact hcc)]
              have heq2 : Camera.growNext (Camera.appendP s b) buf
                  = Camera.growNext (⟨b, s.payloadSize, some (buf ++ s.pending), none⟩
                      : Camera.CapState) (buf ++ s.pending) :=
                Camera.capStateExt (Camera.growNext (Camera.appendP s b) buf)
                  (Camera.growNext (⟨b, s.payloadSize, some (buf ++ s.pending), none⟩
                    : Camera.CapState) (buf ++ s.pending)) e2 rfl
                  (congrArg some e1) rfl
              rw [heq2]
              exact ⟨rfl, fun _ => rfl⟩

/-- Once a frame has been returned, further chunks are ignored. -/
theorem Camera.feed_done (t : Camera.CapState) (b : List Nat) (h : t.done.isSome) :
    Camera.feed t b = t := by
  simp [Camera.feed, h]

/-- Once a frame has been returned, any remaining chunk sequence is
ignored. -/
theorem Camera.foldl_feed_done (t : Camera.CapState) (cs : List (List Nat))
    (h : t.done.isSome) : cs.foldl Camera.feed t = t := by
  induction cs with
  | nil => rfl
  | cons c cst ih =>
    rw [List.foldl_cons, Camera.feed_done t c h]
    exact ih

/-- Chunk-wise processing computes the same returned payload as processing
the concatenation of the chunks at once. -/
theorem Camera.foldl_feed_drain : ∀ (cs : List (List Nat)) (s : Camera.CapState),
    Camera.Inv s → s.done = none →
    (List.foldl Camera.feed (Camera.drain s) cs).done
      = (Camera.drain (Camera.appendP s cs.flatten)).done := by
  intro cs
  induction cs with
  | nil =>
    intro s hInv hd
    rw [List.foldl_nil]
    show (Camera.drain s).done = (Camera.drain (Camera.appendP s [])).done
    rw [Camera.appendP_nil]
  | cons c cst ih =>
    intro s hInv hd
    have happ : Camera.appendP s ((c :: cst).flatten)
        = Camera.appendP (Camera.appendP s c) cst.flatten := by
      refine Camera.capStateExt _ _ ?_ rfl rfl rfl
      show s.pending ++ (c ++ cst.flatten) = (s.pending ++ c) ++ cst.flatten
      rw [List.append_assoc]
    have G := Camera.feed_drain_append (Camera.muC s) s le_rfl hInv hd
    rw [List.foldl_cons, happ]
    cases hdc : (Camera.drain (Camera.appendP s c)).done with
    | none =>
      rw [(G c).2 hdc]
      exact ih (Camera.appendP s c) (Camera.inv_appendP s c hInv) hd
    | some q =>
      have hfc : (Camera.feed (Camera.drain s) c).done = some q := by
        rw [(G c).1]; exact hdc
      rw [Camera.foldl_feed_done _ cst (by rw [hfc]; rfl)]
      rw [hfc]
      have G2 := Camera.feed_drain_append (Camera.muC (Camera.appendP s c))
        (Camera.appendP s c) le_rfl (Camera.inv_appendP s c hInv) hd cst.flatten
      rw [← G2.1]
      rw [Camera.feed_done _ _ (by rw [hdc]; rfl)]
      rw [hdc]

/-! ## C6 — chunking invariance of frame reconstruction -/

/-- C6: frame reconstruction is invariant under transport chunking — for
every byte stream, any partition of it into chunks (one chunk, 1-byte
chunks, partial headers or payloads, several frames per read) produces the
same returned first validated frame payload as feeding the whole stream at
once, with each payload length decoded from the first 3 bytes of its
16-byte header (little endian) by le3. -/
theorem c6_chunking_invariance (chunks : List (List Nat)) (stream : List Nat)
    (h : chunks.flatten = stream) :
    (Camera.runChunks chunks).done = (Camera.feed Camera.initState stream).done := by
  subst h
  unfold Camera.runChunks
  have hdi : Camera.drain Camera.initState = Camera.initState :=
    Camera.drain_nil _ rfl
  have hM := Camera.foldl_feed_drain chunks Camera.initState Camera.inv_initState rfl
  rw [hdi] at hM
  rw [hM]
  have hfi : Camera.feed Camera.initState chunks.flatten
      = Camera.drain (Camera.appendP Camera.initState chunks.flatten) := by
    simp [Camera.feed, Camera.initState]
  rw [hfi]

/-- C6 witness: a 20-byte stream (16-byte header declaring a 4-byte JPEG
payload) delivered as twenty 1-byte chunks returns the same payload as the
stream delivered whole. -/
theorem c6_chunking_invariance_witness :
    ([[4], [0], [0], [0], [0], [0], [0], [0], [0], [0], [0], [0], [0], [0], [0], [0],
       [255], [216], [255], [217]] : List (List Nat)).flatten
      = [4, 0, 0, 0, 0, 0, 0, 0, 0, 0, 0, 0, 0, 0, 0, 0, 255, 216, 255, 217]
    ∧ (Camera.runChunks
        [[4], [0], [0], [0], [0], [0], [0], [0], [0], [0], [0], [0], [0], [0], [0], [0],
         [255], [216], [255], [217]]).done
      = (Camera.feed Camera.initState
          [4, 0, 0, 0, 0, 0, 0, 0, 0, 0, 0, 0, 0, 0, 0, 0, 255, 216, 255, 217]).done :=
  ⟨by decide,
   c6_chunking_invariance
     [[4], [0], [0], [0], [0], [0], [0], [0], [0], [0], [0], [0], [0], [0], [0], [0],
      [255], [216], [255], [217]]
     [4, 0, 0, 0, 0, 0, 0, 0, 0, 0, 0, 0, 0, 0, 0, 0, 255, 216, 255, 217] (by decide)⟩

/-! ## C7 — marker validation, single frame per call -/

/-- A state whose returned payload, if any, passed the marker check keeps
that property through any number of loop iterations. -/
theorem Camera.doneOk_drainF : ∀ (n : Nat) (s : Camera.CapState),
    Camera.DoneOk s → Camera.DoneOk (Camera.drainF n s) := by
  intro n
  induction n with
  | zero => intro s h; exact h
  | succ m ih =>
    intro s h
    rw [Camera.drainF_succ]
    split
    · exact h
    · split
      · exact h
      · split
        · split
          · exact h
          · exact ih _ (by intro p hp2; simp [Camera.headerNext] at hp2)
        · rename_i buf
          split
          · split
            · rename_i hv
              intro p hp2
              simp [Camera.doneState] at hp2
              rw [← hp2]
              exact hv
            · exact ih _ (by intro p hp2; simp [Camera.invalidNext] at hp2)
          · exact ih _ (by intro p hp2; simp [Camera.growNext] at hp2)

/-- Feeding chunks preserves the marker-validity of any returned
payload. -/
theorem Camera.doneOk_foldl : ∀ (cs : List (List Nat)) (s : Camera.CapState),
    Camera.DoneOk s → Camera.DoneOk (cs.foldl Camera.feed s) := by
  intro cs
  induction cs with
  | nil => intro s h; exact h
  | cons c cst ih =>
    intro s h
    rw [List.foldl_cons]
    refine ih (Camera.feed s c) ?_
    unfold Camera.feed
    by_cases hd : s.done.isSome
    · rw [if_pos hd]; exact h
    · rw [if_neg hd]
      exact Camera.doneOk_drainF _ _ h

/-- C7: a completed frame failing the start and end marker check is never
returned — any payload the capture ever returns passed the check; at most
one frame is returned per call — once the payload is returned the whole
state ignores all later chunks; and a stream carrying an invalid frame
followed by a valid one skips the invalid frame, resumes at the next
16-byte header, and returns the valid frame's payload. -/
theorem c7_marker_validation :
    (∀ (chunks : List (List Nat)) (p : List Nat),
      (Camera.runChunks chunks).done = some p → Camera.validStartEnd p = true)
    ∧ (∀ (chunks more : List (List Nat)) (p : List Nat),
        (Camera.runChunks chunks).done = some p →
        (Camera.runChunks (chunks ++ more)).done = some p)
    ∧ (Camera.validStartEnd [0] = false
      ∧ (Camera.feed Camera.initState
          ([1, 0, 0, 0, 0, 0, 0, 0, 0, 0, 0, 0, 0, 0, 0, 0] ++ [0]
            ++ [4, 0, 0, 0, 0, 0, 0, 0, 0, 0, 0, 0, 0, 0, 0, 0]
            ++ [255, 216, 255, 217])).done
        = some [255, 216, 255, 217]) := by
  refine ⟨?_, ?_, by decide, by decide⟩
  · intro chunks p hp
    exact Camera.doneOk_foldl chunks Camera.initState
      (by intro q hq; simp [Camera.initState] at hq) p hp
  · intro chunks more p hp
    unfold Camera.runChunks at hp ⊢
    rw [List.foldl_append]
    rw [Camera.foldl_feed_done _ more (by rw [hp]; rfl)]
    exact hp

/-- C7 witness: a concrete one-chunk capture returning a validated
payload, kept unchanged by a further chunk. -/
theorem c7_marker_validation_witness :
    Camera.validStartEnd [255, 216, 255, 217] = true
    ∧ (Camera.runChunks
        [[4, 0, 0, 0, 0, 0, 0, 0, 0, 0, 0, 0, 0, 0, 0, 0, 255, 216, 255, 217], [9, 9]]).done
      = some [255, 216, 255, 217] :=
  ⟨c7_marker_validation.1 [[4, 0, 0, 0, 0, 0, 0, 0, 0, 0, 0, 0, 0, 0, 0, 0, 255, 216, 255, 217]]
      [255, 216, 255, 217] (by decide),
   c7_marker_validation.2.1 [[4, 0, 0, 0, 0, 0, 0, 0, 0, 0, 0, 0, 0, 0, 0, 0, 255, 216, 255, 217]]
      [[9, 9]] [255, 216, 255, 217] (by decide)⟩
